import Mathlib

/-!
Verification of the antigravity-usage extension core:
`InsightsEngine` (history, burn rate, active-model detection, sorting),
`QuotaFetcher` (port discovery, response parsing, fetch error handling)
and `QuotaStore` (reducer).  Numbers are modelled by `ℚ` (JS numbers),
timestamps by milliseconds as `ℚ`, string-keyed records by association
lists.
-/

namespace AntigravityUsage

/-- One retained history snapshot: a timestamp in milliseconds and a
record mapping modelId to remainingPercent
(`InsightsEngine`, `interface HistoryEntry`). -/
structure HistoryEntry where
  timestamp : ℚ
  models : List (String × ℚ)
  deriving Repr, DecidableEq

/-- Constant `MAX_HISTORY_HOURS = 24`. -/
def MAX_HISTORY_HOURS : ℚ := 24

/-- Constant `MAX_HISTORY_POINTS = 200`. -/
def MAX_HISTORY_POINTS : Nat := 200

/-- JS `array.slice(-n)`: the suffix of the last `n` elements
(the whole list when it has fewer than `n`). -/
def jsSliceLast (n : Nat) (l : List α) : List α :=
  l.drop (l.length - n)

/-- Source `InsightsEngine.calculateBurnRate`: endpoint difference between the
oldest and newest retained history points, clamped at 0. -/
def calculateBurnRate (history : List HistoryEntry) (modelId : String) : ℚ :=
  if history.length < 2 then 0
  else
    match history.head?, history.getLast? with
    | some oldest, some newest =>
      match oldest.models.lookup modelId, newest.models.lookup modelId with
      | some oldValue, some newValue =>
        let deltaPercent := oldValue - newValue
        let deltaHours := (newest.timestamp - oldest.timestamp) / (1000 * 60 * 60)
        if deltaHours ≤ 0 then 0
        else max 0 (deltaPercent / deltaHours)
      | _, _ => 0
    | _, _ => 0

/-- Source `InsightsEngine.getBurnRateLabel`. -/
def getBurnRateLabel (burnRate : ℚ) : String :=
  if burnRate ≤ 0.5 then "Minimal"
  else if burnRate ≤ 2 then "Slow"
  else if burnRate ≤ 5 then "Moderate"
  else if burnRate ≤ 15 then "Fast"
  else "Very Fast"

/-- Source `InsightsEngine.getHistoryData`: sparkline values, last 20 entries,
absent model defaults to 100. -/
def getHistoryData (history : List HistoryEntry) (modelId : String) : List ℚ :=
  (jsSliceLast 20 history).map (fun entry => (entry.models.lookup modelId).getD 100)

/-- Source `InsightsEngine.saveHistory`: persist entries newer than the 24h
cutoff, then keep the last `MAX_HISTORY_POINTS` of them.
`now` is `Date.now()` in milliseconds. -/
def saveHistory (now : ℚ) (history : List HistoryEntry) : List HistoryEntry :=
  let cutoff := now - MAX_HISTORY_HOURS * 60 * 60 * 1000
  jsSliceLast MAX_HISTORY_POINTS (history.filter (fun e => decide (cutoff < e.timestamp)))

/-- Source `InsightsEngine.loadHistory`: drop stored entries at or before the
24h cutoff. -/
def loadHistory (now : ℚ) (stored : List HistoryEntry) : List HistoryEntry :=
  let cutoff := now - MAX_HISTORY_HOURS * 60 * 60 * 1000
  stored.filter (fun e => decide (cutoff < e.timestamp))

/-- Concrete two-point history used to exercise the burn-rate
characterisation: model "m" drops from 90 to 60 over two hours. -/
def histC1 : List HistoryEntry :=
  [⟨0, [("m", 90)]⟩, ⟨7200000, [("m", 60)]⟩]

/-- The history of the spec's worked example: model "A" drops from 100
to 80 over exactly one hour. -/
def histC8 : List HistoryEntry :=
  [⟨0, [("A", 100)]⟩, ⟨3600000, [("A", 80)]⟩]

end AntigravityUsage

namespace AntigravityUsage

/-- C1: the burn rate is 0 when the retained history has fewer than 2
entries, or the model is absent from the oldest or the newest retained
entry, or the time delta between those two entries is ≤ 0; otherwise it
equals `max 0 ((oldestPercent - newestPercent) / deltaHours)` computed
from the oldest and newest retained points; in all cases it is
non-negative. -/
theorem calculateBurnRate_spec (history : List HistoryEntry) (modelId : String) :
    (history.length < 2 → calculateBurnRate history modelId = 0) ∧
    (∀ oldest newest, 2 ≤ history.length →
      history.head? = some oldest → history.getLast? = some newest →
      (oldest.models.lookup modelId = none → calculateBurnRate history modelId = 0) ∧
      (newest.models.lookup modelId = none → calculateBurnRate history modelId = 0) ∧
      (∀ oldValue newValue,
        oldest.models.lookup modelId = some oldValue →
        newest.models.lookup modelId = some newValue →
        ((newest.timestamp - oldest.timestamp) / (1000 * 60 * 60) ≤ 0 →
          calculateBurnRate history modelId = 0) ∧
        (0 < (newest.timestamp - oldest.timestamp) / (1000 * 60 * 60) →
          calculateBurnRate history modelId =
            max 0 ((oldValue - newValue) /
              ((newest.timestamp - oldest.timestamp) / (1000 * 60 * 60)))))) ∧
    0 ≤ calculateBurnRate history modelId := by
  refine ⟨fun h => by simp [calculateBurnRate, h], ?_, ?_⟩
  · intro oldest newest hlen hhead hlast
    have hnot : ¬ history.length < 2 := by omega
    refine ⟨?_, ?_, ?_⟩
    · intro hnone
      simp [calculateBurnRate, hnot, hhead, hlast, hnone]
    · intro hnone
      simp [calculateBurnRate, hnot, hhead, hlast, hnone]
    · intro oldValue newValue hov hnv
      constructor
      · intro hdelta
        simp [calculateBurnRate, hnot, hhead, hlast, hov, hnv, hdelta]
      · intro hdelta
        have hdelta' : ¬ (newest.timestamp - oldest.timestamp) / (1000 * 60 * 60) ≤ 0 :=
          not_le.mpr hdelta
        simp [calculateBurnRate, hnot, hhead, hlast, hov, hnv, hdelta']
  · unfold calculateBurnRate
    split
    · exact le_refl 0
    · split
      · split
        · dsimp only
          split
          · exact le_refl 0
          · exact le_max_left 0 _
        · exact le_refl 0
      · exact le_refl 0

/-- Witness for C1 at a concrete history: two points two hours apart,
model "m" falling from 90 to 60, giving the otherwise-branch formula. -/
theorem calculateBurnRate_spec_witness :
    calculateBurnRate histC1 "m" =
      max 0 ((90 - 60) / ((7200000 - 0) / (1000 * 60 * 60))) :=
  ((((calculateBurnRate_spec histC1 "m").2.1 ⟨0, [("m", 90)]⟩ ⟨7200000, [("m", 60)]⟩
      (by norm_num [histC1]) rfl rfl).2.2 90 60 rfl rfl).2 (by norm_num))

/-- C8 counterexample: for the spec's worked example (100 → 80 over one
hour) the computed burn rate is 20 %/hour but the label the code
produces is not "Moderate". -/
theorem burnRate_example_counterexample :
    calculateBurnRate histC8 "A" = 20 ∧
    getBurnRateLabel (calculateBurnRate histC8 "A") ≠ "Moderate" := by
  have h : calculateBurnRate histC8 "A" = 20 := by
    norm_num [calculateBurnRate, histC8, List.lookup, List.getLast?]
  refine ⟨h, ?_⟩
  rw [h]
  have : getBurnRateLabel 20 = "Very Fast" := by norm_num [getBurnRateLabel]
  rw [this]
  decide

/-- C8 amended: for the spec's worked example the burn rate is exactly
20 %/hour and the label is "Very Fast" (20 exceeds the ≤15 "Fast"
threshold). -/
theorem burnRate_example_amended :
    calculateBurnRate histC8 "A" = 20 ∧
    getBurnRateLabel (calculateBurnRate histC8 "A") = "Very Fast" := by
  have h : calculateBurnRate histC8 "A" = 20 := by
    norm_num [calculateBurnRate, histC8, List.lookup, List.getLast?]
  refine ⟨h, ?_⟩
  rw [h]
  norm_num [getBurnRateLabel]

/-- C9: the sparkline data for a model has length
`min history.length 20`, consists of the most recent entries (the
suffix after dropping all but the last 20), and substitutes 100 for any
entry in which the model is absent. -/
theorem getHistoryData_spec (history : List HistoryEntry) (modelId : String) :
    (getHistoryData history modelId).length = min history.length 20 ∧
    getHistoryData history modelId =
      (history.drop (history.length - 20)).map
        (fun entry =>
          match entry.models.lookup modelId with
          | some v => v
          | none => 100) := by
  constructor
  · simp only [getHistoryData, jsSliceLast, List.length_map, List.length_drop]
    omega
  · simp only [getHistoryData, jsSliceLast]
    apply List.map_congr_left
    intro entry _
    cases entry.models.lookup modelId <;> rfl

/-- C6: saving the history keeps exactly the entries newer than the
24-hour cutoff, capped to the most recent `MAX_HISTORY_POINTS` entries
(a suffix of the filtered list, so the oldest are dropped first), each
retained entry is an unchanged entry of the in-memory history, and
reloading what was saved (with the same clock) reproduces it exactly. -/
theorem saveHistory_loadHistory_roundtrip (now : ℚ) (history : List HistoryEntry) :
    (∀ e ∈ saveHistory now history,
      now - MAX_HISTORY_HOURS * 60 * 60 * 1000 < e.timestamp) ∧
    (saveHistory now history).length ≤ MAX_HISTORY_POINTS ∧
    saveHistory now history =
      (history.filter
          (fun e => decide (now - MAX_HISTORY_HOURS * 60 * 60 * 1000 < e.timestamp))).drop
        ((history.filter
            (fun e => decide (now - MAX_HISTORY_HOURS * 60 * 60 * 1000 < e.timestamp))).length -
          MAX_HISTORY_POINTS) ∧
    (saveHistory now history).Sublist history ∧
    loadHistory now (saveHistory now history) = saveHistory now history := by
  have hmem : ∀ e ∈ saveHistory now history,
      now - MAX_HISTORY_HOURS * 60 * 60 * 1000 < e.timestamp := by
    intro e he
    have he' : e ∈ history.filter
        (fun e => decide (now - MAX_HISTORY_HOURS * 60 * 60 * 1000 < e.timestamp)) :=
      (List.drop_sublist _ _).mem he
    exact of_decide_eq_true (List.mem_filter.mp he').2
  refine ⟨hmem, ?_, rfl, ?_, ?_⟩
  · simp only [saveHistory, jsSliceLast, List.length_drop]
    omega
  · exact ((List.drop_sublist _ _).trans (List.filter_sublist _))
  · simp only [loadHistory]
    exact List.filter_eq_self.mpr (fun e he => decide_eq_true (hmem e he))

end AntigravityUsage

namespace AntigravityUsage

/-- JS `Math.round` on a rational: round half toward positive
infinity, `⌊x + 1/2⌋`. -/
def jsRound (q : ℚ) : ℤ := ⌊q + 1/2⌋

/-- The two fields of a parsed model entry that C2 is about
(`QuotaFetcher.parseResponse`, per-model quota parsing). -/
structure ParsedModelQuota where
  remainingPercent : ℤ
  isExhausted : Bool
  deriving Repr, DecidableEq

/-- Per-model quota parsing in `QuotaFetcher.parseResponse`:
`remainingFraction = model.quotaInfo.remainingFraction ?? 1`,
`remainingPercent = Math.round(remainingFraction * 100)`,
`isExhausted = remainingFraction === 0`. -/
def parseModelQuota (remainingFractionField : Option ℚ) : ParsedModelQuota :=
  let remainingFraction := remainingFractionField.getD 1
  { remainingPercent := jsRound (remainingFraction * 100)
    isExhausted := decide (remainingFraction = 0) }

/-- C2: for a model entry carrying a `remainingFraction`, parsing gives
`remainingPercent = round(remainingFraction * 100)`, which lies in
[0,100] whenever the fraction lies in [0,1], and `isExhausted` holds
exactly when the fraction is 0. -/
theorem parseModelQuota_spec (f : ℚ) :
    (parseModelQuota (some f)).remainingPercent = jsRound (f * 100) ∧
    ((parseModelQuota (some f)).isExhausted = true ↔ f = 0) ∧
    (0 ≤ f → f ≤ 1 →
      0 ≤ (parseModelQuota (some f)).remainingPercent ∧
      (parseModelQuota (some f)).remainingPercent ≤ 100) := by
  refine ⟨rfl, by simp [parseModelQuota], ?_⟩
  intro h0 h1
  have hdef : (parseModelQuota (some f)).remainingPercent = ⌊f * 100 + 1/2⌋ := rfl
  rw [hdef]
  constructor
  · apply Int.le_floor.mpr
    push_cast
    linarith
  · have hlt : (⌊f * 100 + 1/2⌋ : ℤ) < 101 := by
      apply Int.floor_lt.mpr
      push_cast
      linarith
    omega

/-- Witness for C2 at `remainingFraction = 1/2`. -/
theorem parseModelQuota_spec_witness :
    ((parseModelQuota (some (1/2))).isExhausted = true ↔ (1/2 : ℚ) = 0) ∧
    ((0:ℚ) ≤ 1/2 ∧ (1/2:ℚ) ≤ 1) ∧
    0 ≤ (parseModelQuota (some (1/2))).remainingPercent ∧
    (parseModelQuota (some (1/2))).remainingPercent ≤ 100 :=
  ⟨(parseModelQuota_spec (1/2)).2.1, ⟨by norm_num, by norm_num⟩,
    (parseModelQuota_spec (1/2)).2.2 (by norm_num) (by norm_num)⟩

end AntigravityUsage

namespace AntigravityUsage

/-- Type `HealthLevel` from `types.ts`. -/
inductive HealthLevel where
  | excellent
  | good
  | low
  | critical
  deriving Repr, DecidableEq

/-- Type `HealthStatus` from `types.ts`. -/
structure HealthStatus where
  score : ℤ
  level : HealthLevel
  label : String
  deriving Repr, DecidableEq

/-- Type `CreditInfo` from `types.ts`. -/
structure CreditInfo where
  available : ℚ
  monthly : ℚ
  deriving Repr, DecidableEq

/-- Type `ModelQuota` from `types.ts`. -/
structure ModelQuota where
  modelId : String
  label : String
  remainingPercent : ℚ
  isExhausted : Bool
  resetTime : Option String
  timeUntilReset : Option String
  deriving Repr, DecidableEq

/-- Type `ModelInsights` from `types.ts`; `Date` is a millisecond
timestamp. -/
structure ModelInsights where
  burnRate : ℚ
  burnRateLabel : String
  predictedExhaustion : Option ℚ
  predictedExhaustionLabel : Option String
  sessionUsage : ℚ
  isActive : Bool
  isPinned : Bool
  historyData : List ℚ
  deriving Repr, DecidableEq

/-- Type `EnrichedModel` from `types.ts`: a `ModelQuota` plus insights. -/
structure EnrichedModel extends ModelQuota where
  insights : ModelInsights
  deriving Repr, DecidableEq

/-- Type `QuotaState` from `types.ts`. -/
structure QuotaState where
  models : List EnrichedModel
  promptCredits : Option CreditInfo
  flowCredits : Option CreditInfo
  health : HealthStatus
  sessionStart : ℚ
  lastUpdate : ℚ
  isLoading : Bool
  error : Option String
  deriving Repr, DecidableEq

/-- The `UPDATE` payload: `Omit<QuotaState, 'isLoading' | 'error' |
'sessionStart'>`. -/
structure UpdatePayload where
  models : List EnrichedModel
  promptCredits : Option CreditInfo
  flowCredits : Option CreditInfo
  health : HealthStatus
  lastUpdate : ℚ
  deriving Repr, DecidableEq

/-- Type `QuotaAction` from `types.ts`. -/
inductive QuotaAction where
  | loading
  | update (payload : UpdatePayload)
  | error (payload : String)
  | clearError
  deriving Repr, DecidableEq

/-- The `reduce` function of `QuotaStore`; `now` is the `new Date()`
taken in the `UPDATE` branch. -/
def reduce (now : ℚ) (state : QuotaState) (action : QuotaAction) : QuotaState :=
  match action with
  | .loading => { state with isLoading := true, error := none }
  | .update payload =>
    { state with
        models := payload.models
        promptCredits := payload.promptCredits
        flowCredits := payload.flowCredits
        health := payload.health
        isLoading := false
        error := none
        lastUpdate := now }
  | .error msg => { state with isLoading := false, error := some msg }
  | .clearError => { state with error := none }

/-- C10: dispatching `ERROR` sets `isLoading := false` and the error
message, and leaves models, credits, health, sessionStart and
lastUpdate untouched. -/
theorem reduce_error_frame (now : ℚ) (state : QuotaState) (msg : String) :
    (reduce now state (.error msg)).isLoading = false ∧
    (reduce now state (.error msg)).error = some msg ∧
    (reduce now state (.error msg)).models = state.models ∧
    (reduce now state (.error msg)).promptCredits = state.promptCredits ∧
    (reduce now state (.error msg)).flowCredits = state.flowCredits ∧
    (reduce now state (.error msg)).health = state.health ∧
    (reduce now state (.error msg)).sessionStart = state.sessionStart ∧
    (reduce now state (.error msg)).lastUpdate = state.lastUpdate :=
  ⟨rfl, rfl, rfl, rfl, rfl, rfl, rfl, rfl⟩

/-- The comparator passed to `enriched.sort` in
`InsightsEngine.analyze`. -/
def compareModels (a b : EnrichedModel) : ℚ :=
  if a.insights.isPinned && !b.insights.isPinned then -1
  else if !a.insights.isPinned && b.insights.isPinned then 1
  else if a.insights.isActive && !b.insights.isActive then -1
  else if !a.insights.isActive && b.insights.isActive then 1
  else a.remainingPercent - b.remainingPercent

/-- Relation under which `a` may precede `b` per the analyze comparator
(`compareModels a b <= 0`). -/
def modelLe (a b : EnrichedModel) : Prop := compareModels a b ≤ 0

instance : DecidableRel modelLe := fun a b =>
  inferInstanceAs (Decidable (compareModels a b ≤ 0))

/-- JS `Array.prototype.sort` is a stable comparator sort; modelled by
a stable sort (insertion sort) with the analyze comparator. -/
def sortModels (l : List EnrichedModel) : List EnrichedModel :=
  List.insertionSort modelLe l

/-- Rank of a flag for a descending sort: `true` sorts first. -/
def descRank (b : Bool) : ℕ := if b then 0 else 1

/-- The ordering stated by the spec: pinned descending, then active
descending, then `remainingPercent` ascending. -/
def specSortLe (a b : EnrichedModel) : Prop :=
  descRank a.insights.isPinned < descRank b.insights.isPinned ∨
  (descRank a.insights.isPinned = descRank b.insights.isPinned ∧
    (descRank a.insights.isActive < descRank b.insights.isActive ∨
      (descRank a.insights.isActive = descRank b.insights.isActive ∧
        a.remainingPercent ≤ b.remainingPercent)))

/-- The code's comparator realises exactly the spec's lexicographic
key order. -/
theorem modelLe_iff (a b : EnrichedModel) : modelLe a b ↔ specSortLe a b := by
  unfold modelLe compareModels specSortLe descRank
  cases a.insights.isPinned <;> cases b.insights.isPinned <;>
    cases a.insights.isActive <;> cases b.insights.isActive <;>
      simp [sub_nonpos]

/-- Totality of `specSortLe`. -/
theorem specSortLe_total (a b : EnrichedModel) : specSortLe a b ∨ specSortLe b a := by
  unfold specSortLe
  rcases lt_trichotomy (descRank a.insights.isPinned) (descRank b.insights.isPinned)
    with h | h | h
  · exact Or.inl (Or.inl h)
  · rcases lt_trichotomy (descRank a.insights.isActive) (descRank b.insights.isActive)
      with h2 | h2 | h2
    · exact Or.inl (Or.inr ⟨h, Or.inl h2⟩)
    · rcases le_total a.remainingPercent b.remainingPercent with h3 | h3
      · exact Or.inl (Or.inr ⟨h, Or.inr ⟨h2, h3⟩⟩)
      · exact Or.inr (Or.inr ⟨h.symm, Or.inr ⟨h2.symm, h3⟩⟩)
    · exact Or.inr (Or.inr ⟨h.symm, Or.inl h2⟩)
  · exact Or.inr (Or.inl h)

/-- Transitivity of `specSortLe`. -/
theorem specSortLe_trans {a b c : EnrichedModel}
    (h1 : specSortLe a b) (h2 : specSortLe b c) : specSortLe a c := by
  unfold specSortLe at h1 h2 ⊢
  rcases h1 with h1 | ⟨e1, h1⟩
  · rcases h2 with h2 | ⟨e2, h2⟩
    · exact Or.inl (h1.trans h2)
    · exact Or.inl (e2 ▸ h1)
  · rcases h2 with h2 | ⟨e2, h2⟩
    · exact Or.inl (e1 ▸ h2)
    · refine Or.inr ⟨e1.trans e2, ?_⟩
      rcases h1 with h1 | ⟨f1, h1⟩
      · rcases h2 with h2 | ⟨f2, h2⟩
        · exact Or.inl (h1.trans h2)
        · exact Or.inl (f2 ▸ h1)
      · rcases h2 with h2 | ⟨f2, h2⟩
        · exact Or.inl (f1 ▸ h2)
        · exact Or.inr ⟨f1.trans f2, h1.trans h2⟩

instance : IsTotal EnrichedModel modelLe :=
  ⟨fun a b => (specSortLe_total a b).imp (modelLe_iff a b).mpr (modelLe_iff b a).mpr⟩

instance : IsTrans EnrichedModel modelLe :=
  ⟨fun a b c h1 h2 => (modelLe_iff a c).mpr
    (specSortLe_trans ((modelLe_iff a b).mp h1) ((modelLe_iff b c).mp h2))⟩

/-- The unpinned active model at 60% from the spec's sorting example. -/
def mC7active : EnrichedModel :=
  { modelId := "a", label := "A", remainingPercent := 60, isExhausted := false,
    resetTime := none, timeUntilReset := none,
    insights :=
      { burnRate := 0, burnRateLabel := "Minimal", predictedExhaustion := none,
        predictedExhaustionLabel := some "Safe for now", sessionUsage := 0,
        isActive := true, isPinned := false, historyData := [] } }

/-- The pinned inactive model at 90% from the spec's sorting example. -/
def mC7pinned : EnrichedModel :=
  { modelId := "b", label := "B", remainingPercent := 90, isExhausted := false,
    resetTime := none, timeUntilReset := none,
    insights :=
      { burnRate := 0, burnRateLabel := "Minimal", predictedExhaustion := none,
        predictedExhaustionLabel := some "Safe for now", sessionUsage := 0,
        isActive := false, isPinned := true, historyData := [] } }

/-- C7: the enriched model list is sorted by pinned descending, then
active descending, then remainingPercent ascending; and for the two
example models (unpinned active at 60, pinned inactive at 90) the
pinned model sorts first. -/
theorem analyze_sort_spec :
    (∀ l : List EnrichedModel, (sortModels l).Sorted specSortLe) ∧
    sortModels [mC7active, mC7pinned] = [mC7pinned, mC7active] := by
  constructor
  · intro l
    exact (List.sorted_insertionSort modelLe l).imp (fun h => (modelLe_iff _ _).mp h)
  · have hnot : ¬ modelLe mC7active mC7pinned := by
      norm_num [modelLe, compareModels, mC7active, mC7pinned]
    simp [sortModels, List.insertionSort, List.orderedInsert, hnot]

end AntigravityUsage

namespace AntigravityUsage

/-- Constant `PORT_START` of the scan window. -/
def PORT_START : ℕ := 8090

/-- Constant `PORT_END` of the scan window. -/
def PORT_END : ℕ := 8150

/-- The candidate ports of one scan, ascending
(`for (let port = PORT_START; port <= PORT_END; port++)`). -/
def scanPorts : List ℕ := List.range' PORT_START (PORT_END - PORT_START + 1)

/-- Source `QuotaFetcher.checkPort`: a TCP-open test followed, only when the
port is open, by the validation handshake (`testApiEndpoint`); returns
the port together with whether it works. -/
def checkPort (isOpen valid : ℕ → Bool) (port : ℕ) : ℕ × Bool :=
  if isOpen port then (port, valid port) else (port, false)

/-- Source `QuotaFetcher.findApiPort`: starts a `checkPort` for every port of
the window, awaits all of them (`Promise.all`), and returns the first
result, in ascending port order, that works. -/
def findApiPort (isOpen valid : ℕ → Bool) : Option ℕ :=
  ((scanPorts.map (checkPort isOpen valid)).find? (fun r => r.2)).map (fun r => r.1)

/-- The ports whose validation handshake is issued during one
`findApiPort` call: every open port of the window, because all
`checkPort` promises are created before any result is inspected. -/
def handshakePorts (isOpen : ℕ → Bool) : List ℕ :=
  scanPorts.filter (fun p => isOpen p)

/-- The claim's sequential probing, written from the spec's words:
walk the open ports in ascending order, issue the handshake one at a
time, accept the first success and leave the remaining candidates
unprobed.  Returns the accepted port and the ports probed. -/
def sequentialProbeAux (valid : ℕ → Bool) : List ℕ → Option ℕ × List ℕ
  | [] => (none, [])
  | p :: rest =>
    if valid p then (some p, [p])
    else ((sequentialProbeAux valid rest).1, p :: (sequentialProbeAux valid rest).2)

/-- Sequential first-match probing over the open ports of the window
(the behaviour the claim asserts of `findApiPort`). -/
def sequentialProbe (isOpen valid : ℕ → Bool) : Option ℕ × List ℕ :=
  sequentialProbeAux valid (scanPorts.filter (fun p => isOpen p))

/-- Lemma: `checkPort` marks a port as working exactly when it is open and
validates. -/
theorem checkPort_eq (isOpen valid : ℕ → Bool) (port : ℕ) :
    checkPort isOpen valid port = (port, isOpen port && valid port) := by
  unfold checkPort
  cases h : isOpen port <;> simp

/-- Lemma: `findApiPort` is the first port of the window that is open and
validates. -/
theorem findApiPort_eq_find? (isOpen valid : ℕ → Bool) :
    findApiPort isOpen valid = scanPorts.find? (fun p => isOpen p && valid p) := by
  unfold findApiPort
  rw [List.find?_map]
  simp only [Function.comp_def, checkPort_eq, Option.map_map]
  simp

/-- On a strictly increasing list, `find?` returns an element exactly
when it is the least element satisfying the predicate. -/
theorem find?_sorted_eq_some {f : ℕ → Bool} :
    ∀ {l : List ℕ}, l.Pairwise (· < ·) → ∀ {p : ℕ},
      (l.find? f = some p ↔
        p ∈ l ∧ f p = true ∧ ∀ q ∈ l, q < p → f q = false) := by
  intro l hl
  induction l with
  | nil => simp
  | cons a l ih =>
    intro p
    rcases List.pairwise_cons.mp hl with ⟨ha, hl'⟩
    by_cases hfa : f a = true
    · rw [List.find?_cons_of_pos _ hfa]
      constructor
      · intro h
        injection h with h
        subst h
        refine ⟨List.mem_cons_self _ _, hfa, ?_⟩
        intro q hq hlt
        rcases List.mem_cons.mp hq with rfl | hq
        · omega
        · exact absurd hlt (by have := ha q hq; omega)
      · rintro ⟨hp, hfp, hfirst⟩
        rcases List.mem_cons.mp hp with rfl | hp
        · rfl
        · have := hfirst a (List.mem_cons_self _ _) (ha p hp)
          rw [hfa] at this
          exact absurd this (by simp)
    · have hfa' : f a = false := by
        revert hfa
        cases f a <;> simp
      rw [List.find?_cons_of_neg _ (by simp [hfa'])]
      rw [ih hl']
      constructor
      · rintro ⟨hp, hfp, hfirst⟩
        refine ⟨List.mem_cons_of_mem _ hp, hfp, ?_⟩
        intro q hq hlt
        rcases List.mem_cons.mp hq with rfl | hq
        · exact hfa'
        · exact hfirst q hq hlt
      · rintro ⟨hp, hfp, hfirst⟩
        rcases List.mem_cons.mp hp with rfl | hp
        · rw [hfa'] at hfp
          exact absurd hfp (by simp)
        · exact ⟨hp, hfp, fun q hq hlt => hfirst q (List.mem_cons_of_mem _ hq) hlt⟩

/-- Concrete behaviours for the C3 counterexample: ports 8090 and 8091
are open, only 8090 validates. -/
def isOpenC3 (p : ℕ) : Bool := decide (p ≤ 8091)

/-- Only port 8090 returns HTTP 200 in the C3 counterexample. -/
def validC3 (p : ℕ) : Bool := decide (p = 8090)

/-- C3 counterexample: with 8090 and 8091 open and 8090 validating,
the claim's sequential probing would stop after 8090, but the code
issues the handshake for 8091 as well — the remaining candidates are
probed. -/
theorem findApiPort_counterexample :
    findApiPort isOpenC3 validC3 = some 8090 ∧
    (sequentialProbe isOpenC3 validC3).2 = [8090] ∧
    8091 ∈ handshakePorts isOpenC3 ∧
    handshakePorts isOpenC3 ≠ (sequentialProbe isOpenC3 validC3).2 := by
  refine ⟨?_, ?_, ?_, ?_⟩ <;> decide

/-- C3 amended: every open port of the window is probed (the checks
are launched concurrently for the whole window, regardless of earlier
results), and the accepted port is the lowest-numbered port of the
window that is open and validates. -/
theorem findApiPort_spec (isOpen valid : ℕ → Bool) (p : ℕ) :
    (p ∈ handshakePorts isOpen ↔ PORT_START ≤ p ∧ p ≤ PORT_END ∧ isOpen p = true) ∧
    (findApiPort isOpen valid = some p ↔
      (PORT_START ≤ p ∧ p ≤ PORT_END ∧ isOpen p = true ∧ valid p = true ∧
        ∀ q, PORT_START ≤ q → q < p → isOpen q = true → valid q = false)) := by
  have hmem : ∀ q, q ∈ scanPorts ↔ PORT_START ≤ q ∧ q ≤ PORT_END := by
    intro q
    rw [scanPorts, List.mem_range'_1]
    unfold PORT_START PORT_END
    omega
  have hpair : List.Pairwise (· < ·) scanPorts :=
    List.pairwise_lt_range' PORT_START (PORT_END - PORT_START + 1)
  constructor
  · rw [handshakePorts, List.mem_filter, hmem]
    tauto
  · rw [findApiPort_eq_find?, find?_sorted_eq_some hpair]
    constructor
    · rintro ⟨hp, hw, hfirst⟩
      rcases (hmem p).mp hp with ⟨h1, h2⟩
      rcases (by simpa using hw : isOpen p = true ∧ valid p = true) with ⟨ho, hv⟩
      refine ⟨h1, h2, ho, hv, ?_⟩
      intro q hq hlt hoq
      have hqmem : q ∈ scanPorts := (hmem q).mpr ⟨hq, by omega⟩
      have := hfirst q hqmem hlt
      rcases Bool.and_eq_false_iff.mp this with h | h
      · rw [hoq] at h
        exact absurd h (by simp)
      · exact h
    · rintro ⟨h1, h2, ho, hv, hfirst⟩
      refine ⟨(hmem p).mpr ⟨h1, h2⟩, by simp [ho, hv], ?_⟩
      intro q hq hlt
      rcases (hmem q).mp hq with ⟨hq1, _⟩
      cases hoq : isOpen q
      · simp
      · rw [hfirst q hq1 hlt hoq]
        simp

/-- Witness for the C3 amended theorem: with only 8091 open and
validating, `findApiPort` accepts 8091. -/
theorem findApiPort_spec_witness :
    findApiPort (fun p => decide (p = 8091)) (fun p => decide (p = 8091)) = some 8091 :=
  ((findApiPort_spec (fun p => decide (p = 8091)) (fun p => decide (p = 8091)) 8091).2).mpr
    ⟨by decide, by decide, by decide, by decide,
      fun q _ hlt => by
        intro h
        exact absurd (of_decide_eq_true h) (by omega)⟩

end AntigravityUsage

namespace AntigravityUsage

/-- JS `Math.max(...xs)` on a non-empty spread (`none` for the empty
list, where JS yields `-Infinity`). -/
def listMax : List ℚ → Option ℚ
  | [] => none
  | x :: xs => some (xs.foldl max x)

/-- JS `Math.min(...xs)` on a non-empty spread (`none` for the empty
list, where JS yields `Infinity`). -/
def listMin : List ℚ → Option ℚ
  | [] => none
  | x :: xs => some (xs.foldl min x)

/-- The `burnRates` array built inside
`InsightsEngine.detectActiveModel`: each model's id paired with its
burn rate. -/
def burnRates (history : List HistoryEntry) (allModels : List ModelQuota) :
    List (String × ℚ) :=
  allModels.map (fun m => (m.modelId, calculateBurnRate history m.modelId))

/-- Source `InsightsEngine.detectActiveModel`, with the engine state
(`history`, `lastActiveModelId`) passed explicitly: (1) with at least
two history points, if the maximum burn rate exceeds 0.5 and this model
is the first one achieving it, it is active; else (2) if it matches the
last active model id, it is active; else (3) if its remainingPercent
equals the minimum over all models and that minimum is below 90, it is
active. -/
def detectActiveModel (history : List HistoryEntry) (lastActiveModelId : Option String)
    (model : ModelQuota) (allModels : List ModelQuota) : Bool :=
  (if 2 ≤ history.length then
    match listMax ((burnRates history allModels).map (fun b => b.2)) with
    | some maxBurnRate =>
      if (1/2 : ℚ) < maxBurnRate then
        (((burnRates history allModels).find? (fun b => decide (b.2 = maxBurnRate))).map
            (fun b => b.1))
          == some model.modelId
      else false
    | none => false
  else false)
  || (lastActiveModelId == some model.modelId)
  || (match listMin (allModels.map (fun m => m.remainingPercent)) with
      | some lowestRemaining =>
        decide (model.remainingPercent = lowestRemaining) && decide (lowestRemaining < 90)
      | none => false)

/-- Model "a" at 50% for the C4 counterexample. -/
def mC4a : ModelQuota :=
  { modelId := "a", label := "A", remainingPercent := 50, isExhausted := false,
    resetTime := none, timeUntilReset := none }

/-- Model "b" at 50% for the C4 counterexample. -/
def mC4b : ModelQuota :=
  { modelId := "b", label := "B", remainingPercent := 50, isExhausted := false,
    resetTime := none, timeUntilReset := none }

/-- C4 counterexample: with no history and no previous active model,
two distinct models tied at 50% are both designated active by the
fallback rule, so the rules do not designate at most one model. -/
theorem detectActiveModel_counterexample :
    detectActiveModel [] none mC4a [mC4a, mC4b] = true ∧
    detectActiveModel [] none mC4b [mC4a, mC4b] = true ∧
    mC4a.modelId ≠ mC4b.modelId := by
  refine ⟨?_, ?_, by decide⟩ <;>
    norm_num [detectActiveModel, listMin, mC4a, mC4b]

/-- C4 amended: a model is designated active exactly when (1) there
are at least two history points, the maximum burn rate over all models
exceeds 0.5 %/hour and this model is the first one achieving that
maximum, or (2) it matches the model recorded as last active, or
(3) its remainingPercent equals the minimum over all models and that
minimum is below 90 — several models may satisfy (3) simultaneously. -/
theorem detectActiveModel_spec (history : List HistoryEntry)
    (lastActiveModelId : Option String) (model : ModelQuota)
    (allModels : List ModelQuota) :
    detectActiveModel history lastActiveModelId model allModels = true ↔
      ((2 ≤ history.length ∧
        ∃ maxBurnRate,
          listMax (allModels.map (fun m => calculateBurnRate history m.modelId)) =
            some maxBurnRate ∧
          (1/2 : ℚ) < maxBurnRate ∧
          ((burnRates history allModels).find?
              (fun b => decide (b.2 = maxBurnRate))).map (fun b => b.1) =
            some model.modelId) ∨
      lastActiveModelId = some model.modelId ∨
      (∃ lowestRemaining,
        listMin (allModels.map (fun m => m.remainingPercent)) = some lowestRemaining ∧
        model.remainingPercent = lowestRemaining ∧ lowestRemaining < 90)) := by
  unfold detectActiveModel
  rw [Bool.or_eq_true, Bool.or_eq_true]
  have hmap : (burnRates history allModels).map (fun b => b.2) =
      allModels.map (fun m => calculateBurnRate history m.modelId) := by
    unfold burnRates
    rw [List.map_map]
    rfl
  constructor
  · rintro ((h | h) | h)
    · left
      split at h
      · next hlen =>
        refine ⟨hlen, ?_⟩
        rw [hmap] at h
        split at h
        · next mx hmx =>
          split at h
          · next hgt => exact ⟨mx, hmx, hgt, by simpa using h⟩
          · exact absurd h (by simp)
        · exact absurd h (by simp)
      · exact absurd h (by simp)
    · right
      left
      simpa using h
    · right
      right
      cases hlo : listMin (allModels.map (fun m => m.remainingPercent)) with
      | none =>
        rw [hlo] at h
        exact absurd h (by simp)
      | some lo =>
        rw [hlo] at h
        rcases (by simpa using h : model.remainingPercent = lo ∧ lo < 90) with ⟨h1, h2⟩
        exact ⟨lo, rfl, h1, h2⟩
  · rintro (⟨hlen, mx, hmx, hgt, hfind⟩ | h | ⟨lo, hlo, h1, h2⟩)
    · left
      left
      rw [if_pos hlen, hmap, hmx]
      dsimp only
      rw [if_pos hgt]
      simpa using hfind
    · left
      right
      simpa using h
    · right
      rw [hlo]
      simp [h1, h2]

/-- Witness for the C4 amended theorem: a single model at 50% with no
history is active through the lowest-remaining fallback. -/
theorem detectActiveModel_spec_witness :
    detectActiveModel [] none mC4a [mC4a] = true :=
  (detectActiveModel_spec [] none mC4a [mC4a]).mpr
    (Or.inr (Or.inr ⟨50, by norm_num [listMin, mC4a], by norm_num [mC4a], by norm_num⟩))

end AntigravityUsage

namespace AntigravityUsage

/-- The connection parameters `QuotaFetcher` caches
(`interface ConnectionParams`). -/
structure ConnectionParams where
  port : ℕ
  csrfToken : String
  deriving Repr, DecidableEq

/-- The status request of `QuotaFetcher.fetch`
(`makeApiRequest` followed by `parseResponse`), run under the `try`:
an `Except.error` (any transport or parse error) clears the cached
connection and yields `null`; success keeps the connection and yields
the parsed response. -/
def runStatusRequest {α : Type} (conn : ConnectionParams)
    (outcome : Except String α) : Option ConnectionParams × Option α :=
  match outcome with
  | .error _ => (none, none)
  | .ok r => (some conn, some r)

/-- One call of `QuotaFetcher.fetch`, with the environment passed
explicitly: `cached` is the cached connection, `connectResult` the
connection `connect()` would establish (`none` when discovery fails),
and `requestOutcome` the result of the single status-request attempt.
Returns the new cached connection and the call's return value.  The
function is total (`fetch` never throws) and consumes exactly one
request outcome (no retry inside the call). -/
def fetchStep {α : Type} (cached : Option ConnectionParams)
    (connectResult : Option ConnectionParams)
    (requestOutcome : Except String α) :
    Option ConnectionParams × Option α :=
  match cached with
  | none =>
    match connectResult with
    | none => (none, none)
    | some c => runStatusRequest c requestOutcome
  | some c => runStatusRequest c requestOutcome

/-- C5: `fetch` returns `null` (never throws) when discovery fails
with no cached connection; on any transport or parse error it clears
the cached connection and returns `null`; on success it returns the
parsed response and keeps the connection that served the request. -/
theorem fetch_spec {α : Type} (cached connectResult : Option ConnectionParams)
    (requestOutcome : Except String α) :
    (cached = none → connectResult = none →
      fetchStep cached connectResult requestOutcome = (none, none)) ∧
    (∀ e, requestOutcome = Except.error e →
      fetchStep cached connectResult requestOutcome = (none, none)) ∧
    (∀ c r, cached = some c → requestOutcome = Except.ok r →
      fetchStep cached connectResult requestOutcome = (some c, some r)) ∧
    (∀ c r, cached = none → connectResult = some c → requestOutcome = Except.ok r →
      fetchStep cached connectResult requestOutcome = (some c, some r)) := by
  cases cached <;> cases connectResult <;> cases requestOutcome <;>
    simp [fetchStep, runStatusRequest]

/-- Witness for C5: failed discovery with empty cache returns `null`;
an error during the request clears a cached connection; a successful
request returns the response. -/
theorem fetch_spec_witness :
    fetchStep (α := ℕ) none none (Except.error "timeout") = (none, none) ∧
    fetchStep (α := ℕ) (some ⟨8090, "tok"⟩) none (Except.error "HTTP 500") = (none, none) ∧
    fetchStep (α := ℕ) (some ⟨8090, "tok"⟩) none (Except.ok 7) = (some ⟨8090, "tok"⟩, some 7) :=
  ⟨(fetch_spec none none (Except.error "timeout")).1 rfl rfl,
   (fetch_spec (some ⟨8090, "tok"⟩) none (Except.error "HTTP 500")).2.1 "HTTP 500" rfl,
   (fetch_spec (some ⟨8090, "tok"⟩) none (Except.ok 7)).2.2.1 ⟨8090, "tok"⟩ 7 rfl rfl⟩

end AntigravityUsage
